import Mathlib

/-!
Verification of the core behaviours of three modules of the build tool:

* `pants/core/goals/test.py` — the `test` goal: result enrichment, the
  summary sort on `EnrichedTestResult`, the exit-code computation of
  `run_tests`, and the `--debug` branch;
* `pants/backend/go/util_rules/sdk.py` — `GoSdkProcess` construction
  (network denial via `GOPROXY`) and `setup_go_sdk_process` (explicit
  environment allow-list);
* `pants/backend/awslambda/python/target_types.py` — AWS-lambda handler
  resolution and the `runtime` field.

The Python code is shallowly embedded: frozen dataclasses become
structures, `Optional[int]` becomes `Option Int`, engine `Get`s become
explicit oracle parameters (the value the engine would have returned),
and `dict` literals become ordered association lists with Python's
update semantics.  Exceptions become `Except String`.
-/

namespace Pants

/-- Address of a target; only its `spec` string is relevant here. -/
structure Address where
  spec : String
deriving DecidableEq

/-- Content-addressed digest; modelled by its fingerprint. -/
structure Digest where
  fingerprint : String
deriving DecidableEq

/-- Abstract base class `CoverageData`: concrete subclasses carry
arbitrary payloads, modelled by a tag.  Instances are always truthy in
Python, so `Optional[CoverageData]` truthiness is `Option.isSome`. -/
structure CoverageData where
  tag : String
deriving DecidableEq

/-- Enum `ShowOutput` ("which tests to emit detailed output for"). -/
inductive ShowOutput where
  | all
  | failed
  | none
deriving DecidableEq

/-- Dataclass `TestResult` from `test.py`. -/
structure TestResult where
  exit_code : Option Int
  stdout : String
  stderr : String
  address : Address
  coverage_data : Option CoverageData := Option.none
  xml_results : Option Digest := Option.none
deriving DecidableEq

/-- Classmethod `TestResult.skip`. -/
def TestResult.skip (address : Address) : TestResult :=
  { exit_code := Option.none, stdout := "", stderr := "", address := address }

/-- The fields of `TestSubsystem` read by the embedded rules. -/
structure TestSubsystem where
  debug : Bool
  force : Bool
  output : ShowOutput
  use_coverage : Bool
  open_coverage : Bool
deriving DecidableEq

/-- Dataclass `EnrichedTestResult` from `test.py`. -/
structure EnrichedTestResult where
  exit_code : Option Int
  stdout : String
  stderr : String
  address : Address
  output_setting : ShowOutput
  coverage_data : Option CoverageData := Option.none
  xml_results : Option Digest := Option.none
deriving DecidableEq

/-- Property `EnrichedTestResult.skipped`: exit code is `None` and every
output field is falsy. -/
def EnrichedTestResult.skipped (r : EnrichedTestResult) : Bool :=
  r.exit_code.isNone && r.stdout.isEmpty && r.stderr.isEmpty
    && r.coverage_data.isNone && r.xml_results.isNone

/-- Method `EnrichedTestResult.__lt__`: equal exit codes compare by
address spec; a `None` exit code sorts below everything else; otherwise
numeric comparison of the exit codes. -/
def testLt (a b : EnrichedTestResult) : Bool :=
  if a.exit_code = b.exit_code then
    decide (a.address.spec < b.address.spec)
  else
    match a.exit_code, b.exit_code with
    | Option.none, _ => true
    | _, Option.none => false
    | some m, some n => decide (m < n)

/-- The non-strict order induced by `__lt__`, as used by Python's stable
`sorted`: `a` may stay before `b` exactly when `¬ (b < a)`. -/
def testLe (a b : EnrichedTestResult) : Prop :=
  testLt b a = false

instance : DecidableRel testLe :=
  fun a b => inferInstanceAs (Decidable (testLt b a = false))

/-- Model of `sorted(results)` in `run_tests`: a stable sort by
`__lt__`.  `__lt__` is a strict weak order here, so the stable sort is
unique and `List.insertionSort` by the induced `testLe` computes it. -/
def sortedResults (results : List EnrichedTestResult) : List EnrichedTestResult :=
  List.insertionSort testLe results

/-- One iteration of the summary loop of `run_tests`: skipped results
are passed over, exit code 0 leaves the accumulator, and any other
result overwrites the accumulator with its own exit code. -/
def summaryStep (acc : Option Int) (r : EnrichedTestResult) : Option Int :=
  if r.skipped then acc
  else if r.exit_code = some 0 then acc
  else r.exit_code

/-- A result that the summary loop treats as a failure: not skipped and
exit code different from 0. -/
def failing (r : EnrichedTestResult) : Bool :=
  !r.skipped && r.exit_code != some 0

/-- The exit code computed by the non-debug branch of `run_tests`: fold
the summary loop, starting from `0`, over the sorted results.  (The
accumulator is `Option Int` because the loop stores `result.exit_code`,
which is `Optional[int]` in the source.) -/
def runTestsExitCode (results : List EnrichedTestResult) : Option Int :=
  (sortedResults results).foldl summaryStep (some 0)

/-- An interactive process, identified abstractly; the interactive
runner is modelled as a function from processes to exit codes. -/
structure InteractiveProcess where
  id : Nat
deriving DecidableEq

/-- Dataclass `TestDebugRequest`. -/
structure TestDebugRequest where
  process : Option InteractiveProcess
deriving DecidableEq

/-- One iteration of the debug loop of `run_tests`: a request without a
process is passed over; otherwise the process runs and a non-zero exit
code overwrites the goal's exit code. -/
def debugStep (runner : InteractiveProcess → Int) (ec : Int) (req : TestDebugRequest) : Int :=
  match req.process with
  | Option.none => ec
  | some p => if runner p != 0 then runner p else ec

/-- The debug branch of `run_tests`: run each request's process (when
present) with the interactive runner; the goal's exit code starts at
0. -/
def runTestsDebug (runner : InteractiveProcess → Int) (reqs : List TestDebugRequest) : Int :=
  reqs.foldl (debugStep runner) 0

/-- How many interactive processes the debug branch dispatches: one per
request that carries a process. -/
def debugProcessesRun (reqs : List TestDebugRequest) : Nat :=
  (reqs.filterMap (fun req => req.process)).length

/-- Rule `enrich_test_result`: copy every field of the `TestResult` and
add the subsystem's output setting. -/
def enrich_test_result (t : TestResult) (s : TestSubsystem) : EnrichedTestResult :=
  { exit_code := t.exit_code
    stdout := t.stdout
    stderr := t.stderr
    address := t.address
    coverage_data := t.coverage_data
    xml_results := t.xml_results
    output_setting := s.output }

/-- Python `dict` update with one binding: an existing key keeps its
position but its value is replaced; a fresh key is appended. -/
def dictInsert (d : List (String × String)) (k v : String) : List (String × String) :=
  if d.any (fun p => p.1 == k) then
    d.map (fun p => if p.1 == k then (k, v) else p)
  else d ++ [(k, v)]

/-- Lookup in an ordered association list (Python `dict.get`). -/
def dictGet (d : List (String × String)) (k : String) : Option String :=
  (d.find? (fun p => p.1 == k)).map Prod.snd

/-- Python `dict` splat `{**d, **e}`: fold the bindings of `e` into `d`
left to right. -/
def dictUpdate (d e : List (String × String)) : List (String × String) :=
  e.foldl (fun acc p => dictInsert acc p.1 p.2) d

/-- Dataclass `GoSdkProcess` from `sdk.py` (the fields after
`__init__` ran). -/
structure GoSdkProcess where
  command : List String
  description : String
  env : List (String × String)
  input_digest : Digest
  working_dir : Option String
  output_files : List String
  output_directories : List String
  replace_sandbox_root_in_args : Bool
deriving DecidableEq

/-- Constructor `GoSdkProcess.__init__`: unless `allow_downloads` is
set, the stored env is the caller's env updated with
`GOPROXY = "off"`. -/
def GoSdkProcess.make (command : List String) (description : String)
    (env : List (String × String)) (input_digest : Digest)
    (working_dir : Option String) (output_files output_directories : List String)
    (allow_downloads : Bool) (replace_sandbox_root_in_args : Bool) : GoSdkProcess :=
  { command := command
    description := description
    env := if allow_downloads then env else dictInsert env "GOPROXY" "off"
    input_digest := input_digest
    working_dir := working_dir
    output_files := output_files
    output_directories := output_directories
    replace_sandbox_root_in_args := replace_sandbox_root_in_args }

/-- Log levels (only `DEBUG` is used by the embedded rules). -/
inductive LogLevel where
  | debug
  | info
  | warn
deriving DecidableEq

/-- The engine `Process` value built by `setup_go_sdk_process`. -/
structure Process where
  argv : List String
  env : List (String × String)
  input_digest : Digest
  description : String
  output_files : List String
  output_directories : List String
  level : LogLevel
deriving DecidableEq

/-- Dataclass `GoSdkRunSetup`: the digest holding the run script and
the script's path. -/
structure GoSdkRunSetup where
  digest : Digest
  scriptPath : String
deriving DecidableEq

/-- Constant `GoSdkRunSetup.CHDIR_ENV`. -/
def CHDIR_ENV : String := "__PANTS_CHDIR_TO"

/-- Constant `GoSdkRunSetup.SANDBOX_ROOT_ENV`. -/
def SANDBOX_ROOT_ENV : String := "__PANTS_REPLACE_SANDBOX_ROOT"

/-- Env key of the Go SDK cache key added by `setup_go_sdk_process`. -/
def GO_SDK_CACHE_KEY_ENV : String := "__PANTS_GO_SDK_CACHE_KEY"

/-- The `GoRoot` fields read by `setup_go_sdk_process`. -/
structure GoRoot where
  path : String
  version : String
  goos : String
  goarch : String
deriving DecidableEq

/-- Modelled from the spec: the rule answering `EnvironmentVarsRequest`
is not among the sources; per the spec, environment variables passed
through are an explicit allow-list, never the full ambient environment.
So the request returns, for each allow-listed name set in the ambient
environment, that name with its ambient value. -/
def envVarsFor (ambient : String → Option String) (allowList : List String) :
    List (String × String) :=
  allowList.filterMap (fun n => (ambient n).map (fun v => (n, v)))

/-- Rule `setup_go_sdk_process`.  The two engine `Get`s are oracle
parameters: `ambient` feeds the `EnvironmentVarsRequest` (restricted to
`allowList`, the subsystem's `env_vars_to_pass_to_subprocesses`), and
`mergedInputDigest` is the result of merging the run-script digest with
the request's input digest — a value independent of the ambient
environment. -/
def setup_go_sdk_process (ambient : String → Option String) (allowList : List String)
    (request : GoSdkProcess) (go_sdk_run : GoSdkRunSetup) (bashPath : String)
    (goroot : GoRoot) (mergedInputDigest : Digest) : Process :=
  let env_vars := envVarsFor ambient allowList
  let maybe_replace_sandbox_root_env :=
    if request.replace_sandbox_root_in_args then [(SANDBOX_ROOT_ENV, "1")] else []
  let tailEntries :=
    (CHDIR_ENV, request.working_dir.getD "") :: maybe_replace_sandbox_root_env
      ++ [(GO_SDK_CACHE_KEY_ENV,
            goroot.version ++ "/" ++ goroot.goos ++ "/" ++ goroot.goarch)]
  { argv := bashPath :: go_sdk_run.scriptPath :: request.command
    env := dictUpdate (dictUpdate (dictUpdate [] env_vars) request.env) tailEntries
    input_digest := mergedInputDigest
    description := request.description
    output_files := request.output_files
    output_directories := request.output_directories
    level := LogLevel.debug }

/-- Python `str.partition(":")` restricted to the two components the
code uses: the text before the first colon and the text after it (both
empty pieces when there is no colon: the whole string is the first
component). -/
def partitionColon (s : String) : String × String :=
  match s.data.findIdx? (fun c => c = ':') with
  | Option.none => (s, "")
  | some i => (⟨s.data.take i⟩, ⟨s.data.drop (i + 1)⟩)

/-- Python `str.endswith`, computed on the character lists. -/
def strEndsWith (s t : String) : Bool :=
  s.data.drop (s.data.length - t.data.length) == t.data

/-- Python `str.startswith`, computed on the character lists. -/
def strStartsWith (s t : String) : Bool :=
  s.data.take t.data.length == t.data

/-- POSIX `os.path.join` on two components: an absolute second
component wins; otherwise a `/` separator is added unless the first
component is empty or already ends in `/`. -/
def posixJoin (a b : String) : String :=
  if strStartsWith b "/" then b
  else if a = "" || strEndsWith a "/" then a ++ b
  else a ++ "/" ++ b

/-- Split a character list at every occurrence of a separator. -/
def splitChar (sep : Char) : List Char → List (List Char)
  | [] => [[]]
  | c :: cs =>
    match splitChar sep cs with
    | [] => [[]]
    | g :: gs => if c = sep then [] :: g :: gs else (c :: g) :: gs

/-- Components of a relative POSIX path, as `os.path` normalization
sees them: empty components and `.` disappear.  (The embedding covers
the paths the rules deal in: repository-relative paths without `..`.) -/
def pathComponents (s : String) : List String :=
  ((splitChar '/' s.data).map (fun g => String.mk g)).filter (fun c => c ≠ "" && c ≠ ".")

/-- Length of the longest common leading run of two lists. -/
def commonLen : List String → List String → Nat
  | x :: xs, y :: ys => if x = y then commonLen xs ys + 1 else 0
  | _, _ => 0

/-- Join path components with `/`. -/
def joinComponents : List String → String
  | [] => ""
  | [x] => x
  | x :: xs => x ++ "/" ++ joinComponents xs

/-- Replace every `/` by `.` (Python `str.replace(os.path.sep, ".")`
for the single-character separator). -/
def replaceSlashDot (s : String) : String :=
  ⟨s.data.map (fun c => if c = '/' then '.' else c)⟩

/-- POSIX `os.path.relpath(path, start)` for relative, `..`-free
inputs: drop the common leading components, climb out of what remains
of `start`, and descend into what remains of `path`. -/
def relpathModel (path start : String) : String :=
  let p := pathComponents path
  let s := pathComponents start
  let i := commonLen p s
  let rel := List.replicate (s.length - i) ".." ++ p.drop i
  if rel = [] then "." else joinComponents rel

/-- Index of the last occurrence of a character in a list. -/
def lastIdxOf (c : Char) : List Char → Option Nat
  | [] => Option.none
  | x :: xs =>
    match lastIdxOf c xs with
    | some i => some (i + 1)
    | Option.none => if x = c then some 0 else Option.none

/-- Split a path into the directory part (up to and including the last
`/`) and the basename. -/
def splitBasename (p : String) : String × String :=
  match lastIdxOf '/' p.data with
  | Option.none => ("", p)
  | some i => (⟨p.data.take (i + 1)⟩, ⟨p.data.drop (i + 1)⟩)

/-- The root part of Python `os.path.splitext(p)`: cut at the last dot
of the basename, except when every character before that dot in the
basename is itself a dot (leading dots do not start an extension). -/
def splitextRoot (p : String) : String :=
  let dir := (splitBasename p).1
  let base := (splitBasename p).2
  match lastIdxOf '.' base.data with
  | Option.none => p
  | some i =>
    if (base.data.take i).all (fun c => c = '.') then p
    else dir ++ ⟨base.data.take i⟩

/-- Enum `GlobMatchErrorBehavior`. -/
inductive GlobMatchErrorBehavior where
  | ignore
  | warn
  | error
deriving DecidableEq

/-- The fields of an engine `PathGlobs` request that the handler rule
sets: the glob list and the match-error policy. -/
structure PathGlobs where
  globs : List String
  glob_match_error_behavior : GlobMatchErrorBehavior
deriving DecidableEq

/-- Dataclass `ResolvedPythonAwsHandler`. -/
structure ResolvedPythonAwsHandler where
  val : String
  file_name_used : Bool
deriving DecidableEq

/-- The `PathGlobs` request that `resolve_python_aws_handler` issues
for a handler value (none when the path part is not a `.py` file):
one glob joining the target's spec path with the path part, with
error-on-no-match behaviour. -/
def resolveHandlerGlob (specPath handlerVal : String) : Option PathGlobs :=
  let path := (partitionColon handlerVal).1
  if strEndsWith path ".py" then
    some { globs := [posixJoin specPath path],
           glob_match_error_behavior := GlobMatchErrorBehavior.error }
  else Option.none

/-- Rule `resolve_python_aws_handler`.  The two engine `Get`s are
oracle parameters: `globFiles` is the `Paths.files` answer to the glob
request, and `sourceRootPath` the path of the source root computed for
the matched file.  A non-`.py` handler is returned unchanged; a `.py`
handler must match exactly one file, whose source-root-relative path,
extension stripped and separators turned into dots, is joined with the
function name. -/
def resolve_python_aws_handler (_specPath handlerVal : String)
    (globFiles : List String) (sourceRootPath : String) :
    Except String ResolvedPythonAwsHandler :=
  let path := (partitionColon handlerVal).1
  let func := (partitionColon handlerVal).2
  if strEndsWith path ".py" then
    match globFiles with
    | [handlerPath] =>
      let stripped := relpathModel handlerPath sourceRootPath
      let normalized := replaceSlashDot (splitextRoot stripped)
      Except.ok { val := normalized ++ ":" ++ func, file_name_used := true }
    | _ =>
      Except.error "InvalidFieldException: multiple files matched, but only one file expected"
  else Except.ok { val := handlerVal, file_name_used := false }

/-- Numeric value of a digit string. -/
def digitsVal (l : List Char) : Nat :=
  l.foldl (fun n c => 10 * n + (c.toNat - 48)) 0

/-- Python `re.match` of `PYTHON_RUNTIME_REGEX`
(`python(?P<major>\d)\.(?P<minor>\d+)`) against a string, together with
the integer values of the two groups: the string must start with
`python`, one digit, a dot and a maximal nonempty run of digits (the
greedy `\d+`); anything may follow, since `re.match` only anchors at
the start. -/
def runtimeMatch (s : String) : Option (Nat × Nat) :=
  match s.data with
  | 'p' :: 'y' :: 't' :: 'h' :: 'o' :: 'n' :: c :: '.' :: rest =>
    if c.isDigit then
      if rest.takeWhile Char.isDigit = [] then Option.none
      else some (c.toNat - 48, digitsVal (rest.takeWhile Char.isDigit))
    else Option.none
  | _ => Option.none

namespace PythonAwsLambdaRuntime

/-- Classmethod `PythonAwsLambdaRuntime.compute_value`: `None` passes
through, a value matching the runtime regex is returned unchanged, any
other value raises `InvalidFieldException`. -/
def compute_value (raw_value : Option String) : Except String (Option String) :=
  match raw_value with
  | Option.none => Except.ok Option.none
  | some v =>
    if (runtimeMatch v).isSome then Except.ok (some v)
    else Except.error "InvalidFieldException: the runtime field must be of the form pythonX.Y"

/-- Method `PythonAwsLambdaRuntime.to_interpreter_version`: `None` for
an unset field, otherwise the integers of the regex groups.  (On a
field value accepted by `compute_value` the match always succeeds,
matching the source's unchecked cast.) -/
def to_interpreter_version (value : Option String) : Option (Nat × Nat) :=
  value.bind runtimeMatch

end PythonAwsLambdaRuntime

/-- Outcome category in the order the spec sentence names: skipped,
then failed, then succeeded.  Written from the spec's words, for
comparison with the sort the code performs. -/
def outcomeCategory (r : EnrichedTestResult) : Nat :=
  if r.skipped then 0 else if r.exit_code != some 0 then 1 else 2

/-- The comparator the spec sentence describes: primary key the outcome
category (skipped, failed, succeeded), secondary key the target
identifier, lexical.  Written from the spec's words, for comparison
with `testLt`. -/
def specCategoryLt (a b : EnrichedTestResult) : Bool :=
  outcomeCategory a < outcomeCategory b
    || (outcomeCategory a == outcomeCategory b
          && decide (a.address.spec < b.address.spec))

/-- The exit code the spec sentence describes: the first non-zero exit
code observed when traversing a (sorted) result list, 0 when no result
fails.  Written from the spec's words, for comparison with the fold the
code performs. -/
def firstNonZeroExit (l : List EnrichedTestResult) : Option Int :=
  ((l.filter failing).head?).elim (some 0) (fun r => r.exit_code)

/-- Numeric value of a digit character. -/
def charDigitVal (c : Char) : Nat :=
  c.toNat - 48

/-- Decomposition of a string witnessing a `re.match` of the runtime
regex `python(?P<major>\d)\.(?P<minor>\d+)`: the string starts with
`python`, the major digit `d`, a dot and the nonempty digit run `ds`;
`rest` is whatever follows, which must not start with a digit since
`\d+` is greedy. -/
def runtimeRegexDecomp (s : String) (d : Char) (ds rest : List Char) : Prop :=
  s.data = 'p' :: 'y' :: 't' :: 'h' :: 'o' :: 'n' :: d :: '.' :: (ds ++ rest)
    ∧ d.isDigit = true ∧ ds ≠ [] ∧ ds.all Char.isDigit = true
    ∧ rest.head?.all (fun c => !c.isDigit) = true

instance (s : String) (d : Char) (ds rest : List Char) :
    Decidable (runtimeRegexDecomp s d ds rest) := by
  unfold runtimeRegexDecomp
  exact inferInstance

/-- A string matches the runtime regex (in the `re.match` sense: the
match is anchored at the start only). -/
def matchesRuntimeRegex (s : String) : Prop :=
  ∃ d ds rest, runtimeRegexDecomp s d ds rest

theorem summaryStep_of_failing (acc : Option Int) (r : EnrichedTestResult)
    (h : failing r = true) : summaryStep acc r = r.exit_code := by
  obtain ⟨h1, h2⟩ := Bool.and_eq_true_iff.mp h
  have hs : r.skipped = false := by simpa using h1
  have he : r.exit_code ≠ some 0 := by simpa using h2
  simp [summaryStep, hs, he]

theorem summaryStep_of_not_failing (acc : Option Int) (r : EnrichedTestResult)
    (h : failing r = false) : summaryStep acc r = acc := by
  cases hs : r.skipped with
  | true => simp [summaryStep, hs]
  | false =>
    have he : r.exit_code = some 0 := by simpa [failing, hs] using h
    simp [summaryStep, hs, he]

/-- The summary loop of `run_tests` computes, from any starting
accumulator, the exit code of the last failing result of the list, and
leaves the accumulator alone when no result fails. -/
theorem summary_foldl_eq (l : List EnrichedTestResult) (acc : Option Int) :
    l.foldl summaryStep acc
      = ((l.filter failing).getLast?).elim acc (fun r => r.exit_code) := by
  induction l generalizing acc with
  | nil => rfl
  | cons r t ih =>
    rw [List.foldl_cons]
    cases hr : failing r with
    | true =>
      rw [summaryStep_of_failing acc r hr, List.filter_cons_of_pos hr, ih]
      cases hft : t.filter failing with
      | nil => simp [hft]
      | cons x xs =>
        simp only [List.getLast?_cons_cons]
        cases hlast : (x :: xs).getLast? with
        | none => simp [List.getLast?_eq_none_iff] at hlast
        | some y => simp [hlast]
    | false =>
      rw [summaryStep_of_not_failing acc r hr, List.filter_cons_of_neg (by simp [hr]), ih]

/-- The debug loop of `run_tests` computes, from any starting exit
code, the last non-zero exit code among the processes it ran, and
leaves the starting exit code when every process exits 0. -/
theorem debug_foldl_eq (runner : InteractiveProcess → Int) (l : List TestDebugRequest)
    (acc : Int) :
    l.foldl (debugStep runner) acc
      = ((((l.filterMap (fun req => req.process)).map runner).filter
            (fun k => k != 0)).getLast?).getD acc := by
  induction l generalizing acc with
  | nil => rfl
  | cons req t ih =>
    rw [List.foldl_cons]
    cases hp : req.process with
    | none =>
      rw [show debugStep runner acc req = acc from by simp [debugStep, hp], ih]
      simp [List.filterMap_cons, hp]
    | some p =>
      rw [show debugStep runner acc req = if runner p != 0 then runner p else acc from by
        simp [debugStep, hp]]
      by_cases hz : runner p = 0
      · rw [if_neg (by simp [hz]), ih]
        simp [List.filterMap_cons, hp, hz]
      · rw [if_pos (by simp [hz]), ih]
        simp only [List.filterMap_cons, hp, List.map_cons]
        rw [List.filter_cons_of_pos (by simp [hz])]
        cases hft : ((t.filterMap (fun req => req.process)).map runner).filter
            (fun k => k != 0) with
        | nil => simp [hft]
        | cons x xs =>
          simp only [List.getLast?_cons_cons]
          cases hlast : (x :: xs).getLast? with
          | none => simp [List.getLast?_eq_none_iff] at hlast
          | some y => simp [hlast]

/-- C1: over three targets — A succeeding with exit 0, B failing with
exit 5, C skipped — the summary sort yields [C (skipped), A (success),
B (failure)] and `run_tests` returns exit code 5. -/
theorem C1_three_target_scenario :
    sortedResults
        [{ exit_code := some 0, stdout := "", stderr := "", address := ⟨"A"⟩,
           output_setting := ShowOutput.failed },
         { exit_code := some 5, stdout := "", stderr := "", address := ⟨"B"⟩,
           output_setting := ShowOutput.failed },
         { exit_code := Option.none, stdout := "", stderr := "", address := ⟨"C"⟩,
           output_setting := ShowOutput.failed }]
      = [{ exit_code := Option.none, stdout := "", stderr := "", address := ⟨"C"⟩,
           output_setting := ShowOutput.failed },
         { exit_code := some 0, stdout := "", stderr := "", address := ⟨"A"⟩,
           output_setting := ShowOutput.failed },
         { exit_code := some 5, stdout := "", stderr := "", address := ⟨"B"⟩,
           output_setting := ShowOutput.failed }]
      ∧ runTestsExitCode
          [{ exit_code := some 0, stdout := "", stderr := "", address := ⟨"A"⟩,
             output_setting := ShowOutput.failed },
           { exit_code := some 5, stdout := "", stderr := "", address := ⟨"B"⟩,
             output_setting := ShowOutput.failed },
           { exit_code := Option.none, stdout := "", stderr := "", address := ⟨"C"⟩,
             output_setting := ShowOutput.failed }]
        = some 5 := by
  decide

/-- C2 counterexample: with a failure of exit code 1 at address `a` and
a failure of exit code 5 at address `b`, the first non-zero exit code
in sorted order is 1, but `run_tests` returns 5 — the loop overwrites
the exit code at every failure, so the last one wins, not the first. -/
theorem C2_first_nonzero_counterexample :
    runTestsExitCode
        [{ exit_code := some 5, stdout := "", stderr := "", address := ⟨"b"⟩,
           output_setting := ShowOutput.failed },
         { exit_code := some 1, stdout := "", stderr := "", address := ⟨"a"⟩,
           output_setting := ShowOutput.failed }]
      = some 5
      ∧ firstNonZeroExit (sortedResults
          [{ exit_code := some 5, stdout := "", stderr := "", address := ⟨"b"⟩,
             output_setting := ShowOutput.failed },
           { exit_code := some 1, stdout := "", stderr := "", address := ⟨"a"⟩,
             output_setting := ShowOutput.failed }])
      = some 1
      ∧ (5 : Int) ≠ 1 := by
  decide

/-- C2 (amended): `run_tests` returns the exit code of the LAST failing
result in sorted order (0 when no non-skipped result fails); in
particular it returns 0 whenever every non-skipped result has exit
code 0. -/
theorem C2_exit_code_last_nonzero (results : List EnrichedTestResult) :
    runTestsExitCode results
        = (((sortedResults results).filter failing).getLast?).elim (some 0)
            (fun r => r.exit_code)
      ∧ ((∀ r ∈ results, r.skipped = false → r.exit_code = some 0) →
          runTestsExitCode results = some 0) := by
  constructor
  · exact summary_foldl_eq _ _
  · intro h
    rw [runTestsExitCode, summary_foldl_eq]
    have hnil : (sortedResults results).filter failing = [] := by
      rw [List.filter_eq_nil_iff]
      intro r hr
      have hmem : r ∈ results :=
        (List.perm_insertionSort testLe results).mem_iff.mp hr
      cases hs : r.skipped with
      | true => simp [failing, hs]
      | false => simp [failing, hs, h r hmem hs]
    simp [hnil]

/-- C2 witness: a single succeeding result yields exit code 0. -/
theorem C2_exit_code_last_nonzero_witness :
    runTestsExitCode
        [{ exit_code := some 0, stdout := "", stderr := "", address := ⟨"A"⟩,
           output_setting := ShowOutput.failed }]
      = some 0 :=
  (C2_exit_code_last_nonzero
      [{ exit_code := some 0, stdout := "", stderr := "", address := ⟨"A"⟩,
         output_setting := ShowOutput.failed }]).2 (by decide)

/-- C3 counterexample: the claimed comparator puts a failure (exit 5,
address `b`) before a success (exit 0, address `a`), but `__lt__` sorts
the success first — the code orders by numeric exit code, not by the
category order skipped/failed/succeeded. -/
theorem C3_category_order_counterexample :
    specCategoryLt
        { exit_code := some 5, stdout := "", stderr := "", address := ⟨"b"⟩,
          output_setting := ShowOutput.failed }
        { exit_code := some 0, stdout := "", stderr := "", address := ⟨"a"⟩,
          output_setting := ShowOutput.failed }
      = true
      ∧ testLt
          { exit_code := some 5, stdout := "", stderr := "", address := ⟨"b"⟩,
            output_setting := ShowOutput.failed }
          { exit_code := some 0, stdout := "", stderr := "", address := ⟨"a"⟩,
            output_setting := ShowOutput.failed }
        = false
      ∧ sortedResults
          [{ exit_code := some 5, stdout := "", stderr := "", address := ⟨"b"⟩,
             output_setting := ShowOutput.failed },
           { exit_code := some 0, stdout := "", stderr := "", address := ⟨"a"⟩,
             output_setting := ShowOutput.failed }]
        = [{ exit_code := some 0, stdout := "", stderr := "", address := ⟨"a"⟩,
             output_setting := ShowOutput.failed },
           { exit_code := some 5, stdout := "", stderr := "", address := ⟨"b"⟩,
             output_setting := ShowOutput.failed }] := by
  decide

/-- C3 (amended): the sort order of the goal summary is primarily by
exit code — skipped results (no exit code) first, then ascending
numeric exit code, which puts successes (exit 0) before failures with
positive codes — and secondarily by target identifier, lexical, among
results with equal exit codes. -/
theorem C3_sort_order_amended (a b : EnrichedTestResult) :
    testLt a b = true ↔
      (a.exit_code = b.exit_code ∧ a.address.spec < b.address.spec)
        ∨ (a.exit_code = Option.none ∧ b.exit_code ≠ Option.none)
        ∨ (∃ m n, a.exit_code = some m ∧ b.exit_code = some n ∧ m < n) := by
  unfold testLt
  by_cases h : a.exit_code = b.exit_code
  · rw [if_pos h]
    simp only [decide_eq_true_eq]
    constructor
    · intro hlt
      exact Or.inl ⟨h, hlt⟩
    · rintro (⟨_, hlt⟩ | ⟨ha, hb⟩ | ⟨m, n, ha, hb, hmn⟩)
      · exact hlt
      · exact (hb (by rw [← h, ha])).elim
      · rw [ha, hb] at h
        exact absurd (Option.some.inj h) (by omega)
  · rw [if_neg h]
    cases ha : a.exit_code with
    | none =>
      cases hb : b.exit_code with
      | none => rw [ha, hb] at h; exact (h rfl).elim
      | some n => simp [ha, hb]
    | some m =>
      cases hb : b.exit_code with
      | none => simp [ha, hb]
      | some n =>
        rw [ha, hb] at h
        have hmn : m ≠ n := fun he => h (by rw [he])
        simp only [decide_eq_true_eq]
        constructor
        · intro hlt
          exact Or.inr (Or.inr ⟨m, n, rfl, rfl, hlt⟩)
        · rintro (⟨he, _⟩ | ⟨he, _⟩ | ⟨m₁, n₁, he₁, he₂, hlt⟩)
          · exact (h he).elim
          · exact absurd he (by simp)
          · rw [Option.some.inj he₁, Option.some.inj he₂]
            exact hlt

/-- C4 counterexample: with two valid field sets whose debug requests
carry processes exiting 3 and 7, the debug branch dispatches two
interactive processes (not a single target's) and the goal exit code is
7, the last non-zero process exit code — not the exit code 3 of the
first process. -/
theorem C4_single_target_counterexample :
    debugProcessesRun [⟨some ⟨1⟩⟩, ⟨some ⟨2⟩⟩] = 2
      ∧ debugProcessesRun [⟨some ⟨1⟩⟩, ⟨some ⟨2⟩⟩] ≠ 1
      ∧ runTestsDebug (fun p => if p.id = 1 then 3 else 7) [⟨some ⟨1⟩⟩, ⟨some ⟨2⟩⟩] = 7
      ∧ (7 : Int) ≠ 3 := by
  decide

/-- C4 (amended): with the debug flag set, `run_tests` bypasses
batching and runs every eligible target's debug process sequentially as
an interactive, uncached process; the goal's exit code is the last
non-zero process exit code (0 when all succeed).  When a single target
has a process, that process's own exit code is surfaced directly. -/
theorem C4_debug_amended :
    (∀ (runner : InteractiveProcess → Int) (p : InteractiveProcess),
        runTestsDebug runner [⟨some p⟩] = runner p)
      ∧ ∀ (runner : InteractiveProcess → Int) (reqs : List TestDebugRequest),
          runTestsDebug runner reqs
            = ((((reqs.filterMap (fun req => req.process)).map runner).filter
                  (fun k => k != 0)).getLast?).getD 0 := by
  constructor
  · intro runner p
    rw [runTestsDebug, debug_foldl_eq]
    by_cases hz : runner p = 0
    · simp [List.filterMap_cons, hz]
    · simp [List.filterMap_cons, hz]
  · intro runner reqs
    exact debug_foldl_eq runner reqs 0

/-- C8: when there is nothing to do — no eligible field set, or every
per-target result skipped — `run_tests` returns exit code 0. -/
theorem C8_nothing_to_do (results : List EnrichedTestResult)
    (h : ∀ r ∈ results, r.skipped = true) :
    runTestsExitCode results = some 0 := by
  rw [runTestsExitCode, summary_foldl_eq]
  have hnil : (sortedResults results).filter failing = [] := by
    rw [List.filter_eq_nil_iff]
    intro r hr
    have hmem : r ∈ results :=
      (List.perm_insertionSort testLe results).mem_iff.mp hr
    simp [failing, h r hmem]
  simp [hnil]

/-- C8 witness: the empty run and an all-skipped run both exit 0. -/
theorem C8_nothing_to_do_witness :
    runTestsExitCode [] = some 0
      ∧ runTestsExitCode
          [{ exit_code := Option.none, stdout := "", stderr := "", address := ⟨"C"⟩,
             output_setting := ShowOutput.failed }]
        = some 0 :=
  ⟨C8_nothing_to_do [] (by simp),
   C8_nothing_to_do
      [{ exit_code := Option.none, stdout := "", stderr := "", address := ⟨"C"⟩,
         output_setting := ShowOutput.failed }] (by decide)⟩

/-- C9: `enrich_test_result` copies `exit_code`, `stdout`, `stderr`,
`address`, `coverage_data` and `xml_results` unchanged, adding only the
subsystem's output setting; consequently enriching `TestResult.skip`
yields a result whose `skipped` predicate holds. -/
theorem C9_enrich_frame (t : TestResult) (s : TestSubsystem) (a : Address) :
    (enrich_test_result t s).exit_code = t.exit_code
      ∧ (enrich_test_result t s).stdout = t.stdout
      ∧ (enrich_test_result t s).stderr = t.stderr
      ∧ (enrich_test_result t s).address = t.address
      ∧ (enrich_test_result t s).coverage_data = t.coverage_data
      ∧ (enrich_test_result t s).xml_results = t.xml_results
      ∧ (enrich_test_result t s).output_setting = s.output
      ∧ (enrich_test_result (TestResult.skip a) s).skipped = true :=
  ⟨rfl, rfl, rfl, rfl, rfl, rfl, rfl, rfl⟩

theorem dictGet_cons (p : String × String) (t : List (String × String)) (k : String) :
    dictGet (p :: t) k = if p.1 == k then some p.2 else dictGet t k := by
  by_cases hp : (p.1 == k) = true
  · simp [dictGet, List.find?, hp]
  · simp only [Bool.not_eq_true] at hp
    simp [dictGet, List.find?, hp]

theorem dictGet_map_set (d : List (String × String)) (k v : String)
    (h : d.any (fun p => p.1 == k) = true) :
    dictGet (d.map (fun p => if p.1 == k then (k, v) else p)) k = some v := by
  induction d with
  | nil => simp at h
  | cons p t ih =>
    rw [List.any_cons] at h
    rw [List.map_cons]
    by_cases hp : (p.1 == k) = true
    · rw [if_pos hp, dictGet_cons]
      simp
    · rw [if_neg hp, dictGet_cons, if_neg (by simp_all)]
      exact ih (by simpa [hp] using h)

theorem dictGet_append_new (d : List (String × String)) (k v : String)
    (h : d.any (fun p => p.1 == k) = false) :
    dictGet (d ++ [(k, v)]) k = some v := by
  induction d with
  | nil => simp [dictGet, List.find?]
  | cons p t ih =>
    rw [List.any_cons, Bool.or_eq_false_iff] at h
    rw [List.cons_append, dictGet_cons, if_neg (by simp [h.1])]
    exact ih h.2

/-- Updating an association list with a binding makes that binding the
one its key looks up, whichever branch of the Python `dict` update ran
(replace-in-place or append). -/
theorem dictGet_dictInsert (d : List (String × String)) (k v : String) :
    dictGet (dictInsert d k v) k = some v := by
  unfold dictInsert
  by_cases h : d.any (fun p => p.1 == k) = true
  · rw [if_pos h]
    exact dictGet_map_set d k v h
  · rw [if_neg h]
    exact dictGet_append_new d k v (Bool.eq_false_iff.mpr h)

/-- C5: a `GoSdkProcess` built with the default `allow_downloads =
False` has `GOPROXY` mapped to `"off"` in its env, overriding any
caller-supplied `GOPROXY`; with `allow_downloads = True` the env is
exactly the caller's mapping, with no `GOPROXY` entry added. -/
theorem C5_goproxy_default (command : List String) (description : String)
    (env : List (String × String)) (input_digest : Digest)
    (working_dir : Option String) (output_files output_directories : List String)
    (rsr : Bool) :
    dictGet (GoSdkProcess.make command description env input_digest working_dir
        output_files output_directories false rsr).env "GOPROXY" = some "off"
      ∧ (GoSdkProcess.make command description env input_digest working_dir
          output_files output_directories true rsr).env = env :=
  ⟨dictGet_dictInsert env "GOPROXY" "off", rfl⟩

theorem envVarsFor_congr (ambient1 ambient2 : String → Option String)
    (allowList : List String) (h : ∀ n ∈ allowList, ambient1 n = ambient2 n) :
    envVarsFor ambient1 allowList = envVarsFor ambient2 allowList := by
  induction allowList with
  | nil => rfl
  | cons n t ih =>
    unfold envVarsFor at ih ⊢
    rw [List.filterMap_cons, List.filterMap_cons, h n (by simp),
      ih (fun m hm => h m (by simp [hm]))]

theorem key_mem_dictInsert (d : List (String × String)) (k v x : String)
    (hx : x ∈ (dictInsert d k v).map Prod.fst) :
    x ∈ d.map Prod.fst ∨ x = k := by
  unfold dictInsert at hx
  by_cases h : d.any (fun p => p.1 == k) = true
  · rw [if_pos h, List.map_map] at hx
    obtain ⟨p, hp, he⟩ := List.mem_map.mp hx
    by_cases hpk : (p.1 == k) = true
    · simp only [Function.comp_apply, if_pos hpk] at he
      exact Or.inr he.symm
    · simp only [Function.comp_apply, if_neg hpk] at he
      exact Or.inl (List.mem_map.mpr ⟨p, hp, he⟩)
  · rw [if_neg h, List.map_append] at hx
    rcases List.mem_append.mp hx with h1 | h2
    · exact Or.inl h1
    · exact Or.inr (by simpa using h2)

theorem key_mem_dictUpdate (d e : List (String × String)) (x : String)
    (hx : x ∈ (dictUpdate d e).map Prod.fst) :
    x ∈ d.map Prod.fst ∨ x ∈ e.map Prod.fst := by
  induction e generalizing d with
  | nil => exact Or.inl hx
  | cons p t ih =>
    rcases ih (dictInsert d p.1 p.2) hx with h1 | h2
    · rcases key_mem_dictInsert _ _ _ _ h1 with h3 | h3
      · exact Or.inl h3
      · exact Or.inr (by simp [h3])
    · exact Or.inr (by simp [h2])

theorem key_mem_envVarsFor (ambient : String → Option String) (allowList : List String)
    (x : String) (hx : x ∈ (envVarsFor ambient allowList).map Prod.fst) :
    x ∈ allowList := by
  obtain ⟨q, hq, he⟩ := List.mem_map.mp hx
  obtain ⟨n, hn, hf⟩ := List.mem_filterMap.mp hq
  cases ha : ambient n with
  | none => rw [ha] at hf; simp at hf
  | some v =>
    rw [ha] at hf
    have hnq : (n, v) = q := by simpa using hf
    rw [← he, ← hnq]
    exact hn

/-- C7: the `Process` built by `setup_go_sdk_process` depends on the
ambient environment only through the allow-listed variables — two
ambient environments agreeing on the allow-list give equal `Process`
values — and every key of the constructed env is an allow-listed
variable, a key of the request's own env, the chdir or sandbox-root
control variable, or the Go SDK cache key. -/
theorem C7_env_allowlist (ambient1 ambient2 : String → Option String)
    (allowList : List String) (request : GoSdkProcess) (go_sdk_run : GoSdkRunSetup)
    (bashPath : String) (goroot : GoRoot) (mergedInputDigest : Digest)
    (h : ∀ n ∈ allowList, ambient1 n = ambient2 n) :
    setup_go_sdk_process ambient1 allowList request go_sdk_run bashPath goroot
        mergedInputDigest
      = setup_go_sdk_process ambient2 allowList request go_sdk_run bashPath goroot
          mergedInputDigest
      ∧ ∀ kv ∈ (setup_go_sdk_process ambient1 allowList request go_sdk_run bashPath goroot
            mergedInputDigest).env,
          kv.1 ∈ allowList ∨ kv.1 ∈ request.env.map Prod.fst
            ∨ kv.1 = CHDIR_ENV ∨ kv.1 = SANDBOX_ROOT_ENV ∨ kv.1 = GO_SDK_CACHE_KEY_ENV := by
  constructor
  · unfold setup_go_sdk_process
    rw [envVarsFor_congr ambient1 ambient2 allowList h]
  · intro kv hkv
    have hx : kv.1
        ∈ (dictUpdate (dictUpdate (dictUpdate [] (envVarsFor ambient1 allowList))
              request.env)
            ((CHDIR_ENV, request.working_dir.getD "")
              :: (if request.replace_sandbox_root_in_args
                    then [(SANDBOX_ROOT_ENV, "1")] else [])
              ++ [(GO_SDK_CACHE_KEY_ENV,
                    goroot.version ++ "/" ++ goroot.goos ++ "/" ++ goroot.goarch)])).map
          Prod.fst :=
      List.mem_map_of_mem Prod.fst hkv
    rcases key_mem_dictUpdate _ _ _ hx with h1 | h2
    · rcases key_mem_dictUpdate _ _ _ h1 with h3 | h4
      · rcases key_mem_dictUpdate _ _ _ h3 with h5 | h6
        · exact absurd h5 (List.not_mem_nil _)
        · exact Or.inl (key_mem_envVarsFor _ _ _ h6)
      · exact Or.inr (Or.inl h4)
    · right; right
      by_cases hrs : request.replace_sandbox_root_in_args
      · simp [hrs] at h2
        tauto
      · simp [hrs] at h2
        tauto

/-- C7 witness: two concrete ambient environments agreeing on the
allow-listed `PATH` (one also carries a secret variable, the other does
not) give identical `Process` values. -/
theorem C7_env_allowlist_witness :
    setup_go_sdk_process
        (fun n => if n = "PATH" then some "/usr/bin" else some "secret") ["PATH"]
        (GoSdkProcess.make ["env"] "run go env" [("GOFLAGS", "-v")] ⟨"d1"⟩ (some "wd")
          [] [] false true)
        ⟨⟨"d0"⟩, "__run_go.sh"⟩ "/bin/bash" ⟨"/goroot", "1.17.1", "linux", "amd64"⟩ ⟨"m0"⟩
      = setup_go_sdk_process
        (fun n => if n = "PATH" then some "/usr/bin" else Option.none) ["PATH"]
        (GoSdkProcess.make ["env"] "run go env" [("GOFLAGS", "-v")] ⟨"d1"⟩ (some "wd")
          [] [] false true)
        ⟨⟨"d0"⟩, "__run_go.sh"⟩ "/bin/bash" ⟨"/goroot", "1.17.1", "linux", "amd64"⟩ ⟨"m0"⟩ :=
  (C7_env_allowlist
    (fun n => if n = "PATH" then some "/usr/bin" else some "secret")
    (fun n => if n = "PATH" then some "/usr/bin" else Option.none) ["PATH"]
    (GoSdkProcess.make ["env"] "run go env" [("GOFLAGS", "-v")] ⟨"d1"⟩ (some "wd")
      [] [] false true)
    ⟨⟨"d0"⟩, "__run_go.sh"⟩ "/bin/bash" ⟨"/goroot", "1.17.1", "linux", "amd64"⟩ ⟨"m0"⟩
    (by decide)).1

/-- C6: handler-field resolution.  A handler whose path part ends in
`.py` makes the rule issue a glob (spec path joined with the path part)
with error-on-no-match behaviour; more than one matching file raises
`InvalidFieldException`; exactly one matching file yields that file's
source-root-relative path, extension removed and separators replaced by
dots, joined by a colon with the function name, with `file_name_used`;
a handler whose path part is not a `.py` file is returned unchanged and
issues no glob. -/
theorem C6_handler_resolution (specPath handlerVal sourceRootPath : String)
    (globFiles : List String) :
    (strEndsWith (partitionColon handlerVal).1 ".py" = true →
        resolveHandlerGlob specPath handlerVal
          = some { globs := [posixJoin specPath (partitionColon handlerVal).1],
                   glob_match_error_behavior := GlobMatchErrorBehavior.error })
      ∧ (strEndsWith (partitionColon handlerVal).1 ".py" = false →
          resolveHandlerGlob specPath handlerVal = Option.none
            ∧ resolve_python_aws_handler specPath handlerVal globFiles sourceRootPath
                = Except.ok { val := handlerVal, file_name_used := false })
      ∧ (strEndsWith (partitionColon handlerVal).1 ".py" = true → 1 < globFiles.length →
          ∃ e, resolve_python_aws_handler specPath handlerVal globFiles sourceRootPath
              = Except.error e)
      ∧ (∀ f, strEndsWith (partitionColon handlerVal).1 ".py" = true → globFiles = [f] →
          resolve_python_aws_handler specPath handlerVal globFiles sourceRootPath
            = Except.ok
                { val := replaceSlashDot (splitextRoot (relpathModel f sourceRootPath))
                    ++ ":" ++ (partitionColon handlerVal).2,
                  file_name_used := true }) := by
  refine ⟨?_, ?_, ?_, ?_⟩
  · intro hpy
    simp [resolveHandlerGlob, hpy]
  · intro hpy
    constructor
    · simp [resolveHandlerGlob, hpy]
    · simp [resolve_python_aws_handler, hpy]
  · intro hpy hlen
    match globFiles, hlen with
    | a :: b :: u, _ =>
      refine ⟨"InvalidFieldException: multiple files matched, but only one file expected", ?_⟩
      simp [resolve_python_aws_handler, hpy]
  · intro f hpy hglob
    subst hglob
    simp [resolve_python_aws_handler, hpy]

/-- C6 witness: the handler `lambda.py:handler_func` of a target at
spec path `src/py`, with the glob matching exactly the file
`src/py/lambda.py` under source root `src`, resolves to
`py.lambda:handler_func` with `file_name_used`; and its glob request
carries error-on-no-match behaviour. -/
theorem C6_handler_resolution_witness :
    resolve_python_aws_handler "src/py" "lambda.py:handler_func" ["src/py/lambda.py"] "src"
        = Except.ok { val := "py.lambda:handler_func", file_name_used := true }
      ∧ resolveHandlerGlob "src/py" "lambda.py:handler_func"
        = some { globs := ["src/py/lambda.py"],
                 glob_match_error_behavior := GlobMatchErrorBehavior.error } := by
  constructor
  · have h := (C6_handler_resolution "src/py" "lambda.py:handler_func" "src"
      ["src/py/lambda.py"]).2.2.2 "src/py/lambda.py" (by decide) rfl
    rw [h]
    rfl
  · have h := (C6_handler_resolution "src/py" "lambda.py:handler_func" "src"
      ["src/py/lambda.py"]).1 (by decide)
    rw [h]
    rfl

theorem takeWhile_append_all (p : Char → Bool) (l1 l2 : List Char)
    (h1 : l1.all p = true) (h2 : l2.head?.all (fun c => !p c) = true) :
    (l1 ++ l2).takeWhile p = l1 := by
  induction l1 with
  | nil =>
    cases l2 with
    | nil => rfl
    | cons c t =>
      simp only [List.head?] at h2
      have hc : p c = false := by simpa using h2
      simp [List.takeWhile_cons, hc]
  | cons a t ih =>
    rw [List.all_cons, Bool.and_eq_true_iff] at h1
    simp [List.takeWhile_cons, h1.1, ih h1.2]

/-- A decomposition of the input string makes the embedded `re.match`
succeed with the decomposed groups. -/
theorem runtimeMatch_eq_of_decomp (s : String) (d : Char) (ds rest : List Char)
    (h : runtimeRegexDecomp s d ds rest) :
    runtimeMatch s = some (charDigitVal d, digitsVal ds) := by
  obtain ⟨hs, hd, hne, hall, hrest⟩ := h
  unfold runtimeMatch
  rw [hs]
  show (if d.isDigit then
      if (ds ++ rest).takeWhile Char.isDigit = [] then Option.none
      else some (d.toNat - 48, digitsVal ((ds ++ rest).takeWhile Char.isDigit))
    else Option.none) = some (charDigitVal d, digitsVal ds)
  rw [if_pos hd, takeWhile_append_all Char.isDigit ds rest hall hrest, if_neg hne]
  rfl

/-- A successful embedded `re.match` yields a decomposition of the
input string into the regex groups. -/
theorem decomp_of_runtimeMatch (s : String) (m n : Nat)
    (h : runtimeMatch s = some (m, n)) :
    ∃ d ds rest, runtimeRegexDecomp s d ds rest
      ∧ m = charDigitVal d ∧ n = digitsVal ds := by
  unfold runtimeMatch at h
  split at h
  case _ c rest' heq =>
    split at h
    case isTrue hd =>
      split at h
      case isTrue hnil => exact absurd h (by simp)
      case isFalse hnil =>
        refine ⟨c, rest'.takeWhile Char.isDigit, rest'.dropWhile Char.isDigit,
          ⟨?_, hd, hnil, ?_, ?_⟩, ?_, ?_⟩
        · rw [List.takeWhile_append_dropWhile]
          exact heq
        · exact List.all_eq_true.mpr (fun x hx => List.mem_takeWhile_imp hx)
        · cases hdw : rest'.dropWhile Char.isDigit with
          | nil => rfl
          | cons x t =>
            have hlen : 0 < (rest'.dropWhile Char.isDigit).length := by simp [hdw]
            have hx := List.dropWhile_get_zero_not Char.isDigit rest' hlen
            have hget : (rest'.dropWhile Char.isDigit).get ⟨0, hlen⟩ = x := by
              simp [hdw]
            rw [hget] at hx
            simp [hx]
        · exact (congrArg Prod.fst (Option.some.inj h)).symm
        · exact (congrArg Prod.snd (Option.some.inj h)).symm
    case isFalse hd => exact absurd h (by simp)
  case _ => exact absurd h (by simp)

/-- C10: `PythonAwsLambdaRuntime.compute_value` passes `None` through,
returns any string matching the runtime regex unchanged (in the
`re.match` sense: anchored at the start), and raises
`InvalidFieldException` for every other string; on every accepted
value, `to_interpreter_version` returns exactly the (major, minor)
integers parsed from the two regex groups. -/
theorem C10_runtime_field :
    PythonAwsLambdaRuntime.compute_value Option.none = Except.ok Option.none
      ∧ (∀ s, matchesRuntimeRegex s →
          PythonAwsLambdaRuntime.compute_value (some s) = Except.ok (some s))
      ∧ (∀ s, ¬ matchesRuntimeRegex s →
          ∃ e, PythonAwsLambdaRuntime.compute_value (some s) = Except.error e)
      ∧ (∀ s d ds rest, runtimeRegexDecomp s d ds rest →
          PythonAwsLambdaRuntime.to_interpreter_version (some s)
            = some (charDigitVal d, digitsVal ds)) := by
  refine ⟨rfl, ?_, ?_, ?_⟩
  · rintro s ⟨d, ds, rest, hdec⟩
    have hm := runtimeMatch_eq_of_decomp s d ds rest hdec
    simp [PythonAwsLambdaRuntime.compute_value, hm]
  · intro s hnm
    have hm : runtimeMatch s = Option.none := by
      cases hm : runtimeMatch s with
      | none => rfl
      | some p =>
        obtain ⟨d, ds, rest, hdec, _, _⟩ :=
          decomp_of_runtimeMatch s p.1 p.2 (by rw [hm])
        exact absurd ⟨d, ds, rest, hdec⟩ hnm
    refine ⟨"InvalidFieldException: the runtime field must be of the form pythonX.Y", ?_⟩
    simp [PythonAwsLambdaRuntime.compute_value, hm]
  · intro s d ds rest hdec
    have hm := runtimeMatch_eq_of_decomp s d ds rest hdec
    simp [PythonAwsLambdaRuntime.to_interpreter_version, hm]

/-- C10 witness: the runtime `python3.8` is accepted unchanged and
parses to the interpreter version (3, 8). -/
theorem C10_runtime_field_witness :
    PythonAwsLambdaRuntime.compute_value (some "python3.8") = Except.ok (some "python3.8")
      ∧ PythonAwsLambdaRuntime.to_interpreter_version (some "python3.8") = some (3, 8) :=
  ⟨C10_runtime_field.2.1 "python3.8" ⟨'3', ['8'], [], by decide⟩,
   C10_runtime_field.2.2.2 "python3.8" '3' ['8'] [] (by decide)⟩

end Pants
